import Mathlib

/-!
# Verification of the `foamstream` streaming engine

Shallow embedding of `foamstream/streamer.py` (class `Streamer`): the
parameter validation and serializer resolution performed by `__init__`,
the `_send` routine, the `__reset_counter` routine, and the
dequeue-and-process body of the `_run` sending loop, together with proofs
of the specification claims about them.

Conventions of the embedding:
* Python strings are Lean `String`s; `str.upper`/`str.lower` are modelled
  for the ASCII range (the only range the parsed option sets exercise).
* Python objects flowing through the queue are an abstract type `α`
  together with the functions the loop applies to them: the serializer
  (`pack`), `sys.getsizeof` (`getsizeof`), the sequence view used by the
  multipart send loop (`asSeq`), and the behaviour of the Python `==`
  comparison against the module-level `_reset_counter_sentinel` object
  (`eqSentinel`).
* `time.monotonic()` values and the float `frequency` are rationals;
  wall-clock inputs are supplied per loop iteration.
* Raising `ValueError` is `Except.error` carrying the message.
-/

namespace Foamstream

/-- Python `str.upper` on one character (ASCII range: `'a'..'z'`, i.e.
code points 97..122, map to 65..90; everything else is unchanged). -/
def pyUpperChar (c : Char) : Char :=
  if 97 ≤ c.toNat ∧ c.toNat ≤ 122 then Char.ofNat (c.toNat - 32) else c

/-- Python `str.lower` on one character (ASCII range). -/
def pyLowerChar (c : Char) : Char :=
  if 65 ≤ c.toNat ∧ c.toNat ≤ 90 then Char.ofNat (c.toNat + 32) else c

/-- Python `str.upper` (`sock.upper()` in `Streamer._parse_sock_type`). -/
def pyUpper (s : String) : String := ⟨s.data.map pyUpperChar⟩

/-- Python `str.lower` (`protocol.lower()` in `Streamer._parse_protocol`). -/
def pyLower (s : String) : String := ⟨s.data.map pyLowerChar⟩

/-- The three ZMQ socket roles accepted by `Streamer._parse_sock_type`
(`zmq.PUSH`, `zmq.REP`, `zmq.PUB`). -/
inductive SockType where
  | PUSH
  | REP
  | PUB
deriving DecidableEq

/-- `Streamer._parse_sock_type` (streamer.py lines 105-113): upper-case the
argument, return the matching socket role, otherwise raise
`ValueError(f"Unsupported ZMQ socket type: {sock}")` (with the already
upper-cased `sock` interpolated). -/
def parse_sock_type (sock : String) : Except String SockType :=
  let sock := pyUpper sock
  if sock = "PUSH" then .ok .PUSH
  else if sock = "REP" then .ok .REP
  else if sock = "PUB" then .ok .PUB
  else .error ("Unsupported ZMQ socket type: " ++ sock)

/-- `Streamer._parse_protocol` (streamer.py lines 115-119): lower-case the
argument, require it to be `"tcp"` or `"ipc"`, and return it; otherwise raise
`ValueError(f"Unsupported ZMQ transport protocol: {protocol}")`. -/
def parse_protocol (protocol : String) : Except String String :=
  let protocol := pyLower protocol
  if ¬ (protocol = "tcp" ∨ protocol = "ipc") then
    .error ("Unsupported ZMQ transport protocol: " ++ protocol)
  else .ok protocol

/-- The `serializer` argument of `Streamer.__init__`: either a callable used
as-is, or a name passed to `foamclient.create_serializer`. -/
inductive SerializerArg (α : Type) where
  | callable (f : α → α)
  | named (kind : String)

/-- The fields of a constructed `Streamer` that the claims are about. -/
structure InitConfig (α : Type) where
  sock_type : SockType
  protocol : String
  pack : α → α
  multipart : Bool

/-- The validation and serializer-resolution part of `Streamer.__init__`
(streamer.py lines 74-88): parse the socket type, then the protocol, then
resolve the serializer — a callable is used as-is, otherwise
`create_serializer(serializer, schema, multipart=multipart)` is called.

`create_serializer` lives in the external `foamclient` package, so it is a
parameter of the embedding: it receives the serializer name and the
`multipart` flag (the fixed `schema` argument is absorbed into it) and
either returns a packing function or raises.  Note that `__init__` itself
contains no check relating `sock` and `multipart`. -/
def streamerInit {α : Type} (createSerializer : String → Bool → Except String (α → α))
    (sock protocol : String) (serializer : SerializerArg α) (multipart : Bool) :
    Except String (InitConfig α) := do
  let sock_type ← parse_sock_type sock
  let proto ← parse_protocol protocol
  let pack ← match serializer with
    | .callable f => pure f
    | .named kind => createSerializer kind multipart
  pure { sock_type := sock_type, protocol := proto, pack := pack, multipart := multipart }

/-! ## The sending loop

The queue, `_send`, `__reset_counter` and the dequeue-and-process body of
`_run` (streamer.py lines 151-226 and 252-260).  The embedding processes the
FIFO content of `self._buffer` as a list: successful `Queue.get` calls
return the entries in exactly the order `feed`/`reset_counter` put them
(`queue.Queue` is FIFO), and `Empty` timeouts merely re-enter the loop. -/

/-- The configuration a running `Streamer` closes over, together with the
semantic functions of the abstract Python data universe `α`. -/
structure StreamerCfg (α : Type) where
  sock_type : SockType
  multipart : Bool
  early_serialization : Bool
  /-- `self._pack`, the resolved serializer. -/
  pack : α → α
  /-- Whether `x == _reset_counter_sentinel` evaluates to `True` for the
  object `x`.  The sentinel is a bare `object()`, whose default `__eq__` is
  identity, but the comparison dispatches to `x.__eq__` first. -/
  eqSentinel : α → Bool
  /-- `sys.getsizeof`. -/
  getsizeof : α → Nat
  /-- The sequence view `enumerate(payload)` / `len(payload)` iterate over
  when `multipart` is enabled. -/
  asSeq : α → List α
  /-- `self._frequency`. -/
  frequency : ℚ
  /-- `self._report_every`. -/
  report_every : ℤ

/-- A queue entry: the module-level `_reset_counter_sentinel` object itself,
or any other object put by `feed`. -/
inductive Entry (α : Type) where
  | sentinel
  | record (v : α)
deriving DecidableEq

/-- The value of the Python expression `data == _reset_counter_sentinel`
(streamer.py line 204) for a dequeued entry. -/
def Entry.pyEqSentinel {α : Type} (cfg : StreamerCfg α) : Entry α → Bool
  | .sentinel => true
  | .record v => cfg.eqSentinel v

/-- One `socket.send` call: the object sent and whether `zmq.SNDMORE` was
passed. -/
structure SendEvent (α : Type) where
  frame : α
  sndmore : Bool
deriving DecidableEq

/-- The frames sent by the loop `for i, item in enumerate(payload)` in
`Streamer._send`: every frame is sent with `zmq.SNDMORE` except the one at
index `len(payload) - 1`. -/
def sendFramesGo {α : Type} (n : Nat) : Nat → List α → List (SendEvent α)
  | _, [] => []
  | i, item :: rest =>
      { frame := item, sndmore := decide (¬ i = n - 1) } :: sendFramesGo n (i + 1) rest

/-- The `socket.send` calls issued for one multipart payload. -/
def sendFrames {α : Type} (payload : List α) : List (SendEvent α) :=
  sendFramesGo payload.length 0 payload

/-- What one call of `Streamer._send` (streamer.py lines 159-173) does:
the socket events issued, the updated `self._records_sent` and
`self._bytes_sent`, and whether the throughput report fired. -/
structure SendResult (α : Type) where
  events : List (SendEvent α)
  records_sent : Nat
  bytes_sent : Nat
  reported : Bool

/-- `Streamer._send`: multipart payloads are iterated frame by frame with
`zmq.SNDMORE` on all but the last, accumulating `sys.getsizeof(item)` into
`bytes_sent`; otherwise the payload is sent whole.  Then `records_sent` is
incremented and the report fires iff `report_every > 0` and the updated
`records_sent` is a multiple of it. -/
def streamerSend {α : Type} (cfg : StreamerCfg α) (payload : α)
    (records_sent bytes_sent : Nat) : SendResult α :=
  let eventsBytes : List (SendEvent α) × Nat :=
    if cfg.multipart then
      (sendFrames (cfg.asSeq payload),
       bytes_sent + ((cfg.asSeq payload).map cfg.getsizeof).sum)
    else
      ([{ frame := payload, sndmore := false }], bytes_sent + cfg.getsizeof payload)
  { events := eventsBytes.1
    bytes_sent := eventsBytes.2
    records_sent := records_sent + 1
    reported :=
      decide (0 < cfg.report_every) &&
        decide ((records_sent + 1) % cfg.report_every.toNat = 0) }

/-- The mutable state the `_run` loop works on: the three counter fields of
the `Streamer` plus the loop-local pacer window `t_sent` (`none` when no
positive frequency is configured) and the REP-gating flag `rep_ready`. -/
structure LoopState (α : Type) where
  records_sent : Nat
  bytes_sent : Nat
  t0 : ℚ
  t_sent : Option (List ℚ)
  rep_ready : Bool

/-- `sent_interval` as computed at the top of `Streamer._run`
(lines 180-186): `1 / frequency` if positive, else `0`. -/
def sentInterval (f : ℚ) : ℚ := if 0 < f then 1 / f else 0

/-- The `maxlen` of the pacer deque (line 183):
`max(10, int(self._frequency) + 1)`; Python `int` truncates, which for the
positive frequencies that reach this line is the floor. -/
def windowCapacity (f : ℚ) : Nat := max 10 (⌊f⌋.toNat + 1)

/-- `collections.deque(maxlen=m).append`: when the deque is full the oldest
(leftmost) entries are evicted to make room for the appended value. -/
def dequeAppend (maxlen : Nat) (xs : List ℚ) (x : ℚ) : List ℚ :=
  if xs.length < maxlen then xs ++ [x]
  else xs.drop (xs.length + 1 - maxlen) ++ [x]

/-- The observable effects of one loop iteration that dequeued an entry:
socket sends, the payload handed to `_send` (if any), report emissions, the
counter snapshot read by `__reset_counter`, and the pacing sleep. -/
structure StepOut (α : Type) where
  events : List (SendEvent α) := []
  sent : Option α := none
  sendReported : Bool := false
  resetReported : Bool := false
  resetSnapshot : Option (Nat × Nat) := none
  sleep : Option ℚ := none
deriving DecidableEq

/-- The reset path (streamer.py lines 204-208 and 252-257): report iff any
records were sent this epoch, zero both counters, restart the epoch clock,
clear the pacer window if pacing is active, and send nothing. -/
def resetBranch {α : Type} (now : ℚ) (st : LoopState α) : LoopState α × StepOut α :=
  ({ records_sent := 0, bytes_sent := 0, t0 := now,
     t_sent := st.t_sent.map (fun _ => ([] : List ℚ)), rep_ready := st.rep_ready },
   { resetReported := decide (0 < st.records_sent),
     resetSnapshot := some (st.records_sent, st.bytes_sent) })

/-- The transmit path (streamer.py lines 210-222): serialize unless already
serialized at `feed` time, call `_send`, drop `rep_ready` for REP sockets,
and, when pacing, append `now` to the window and sleep if the windowed
average is ahead of schedule. -/
def sendBranch {α : Type} (cfg : StreamerCfg α) (now : ℚ) (st : LoopState α)
    (v : α) : LoopState α × StepOut α :=
  let data := if cfg.early_serialization then v else cfg.pack v
  let s := streamerSend cfg data st.records_sent st.bytes_sent
  let rep_ready := if cfg.sock_type = SockType.REP then false else st.rep_ready
  match st.t_sent with
  | none =>
      ({ st with records_sent := s.records_sent, bytes_sent := s.bytes_sent,
                 rep_ready := rep_ready },
       { events := s.events, sent := some data, sendReported := s.reported })
  | some w =>
      let w2 := dequeAppend (windowCapacity cfg.frequency) w now
      let dt := w2.getLastD 0 - w2.headD 0
      let t_wait := ((w2.length - 1 : ℕ) : ℚ) * sentInterval cfg.frequency - dt
      ({ st with records_sent := s.records_sent, bytes_sent := s.bytes_sent,
                 rep_ready := rep_ready, t_sent := some w2 },
       { events := s.events, sent := some data, sendReported := s.reported,
         sleep := if 0 < t_wait then some t_wait else none })

/-- One iteration of the `while` body of `Streamer._run` after a successful
`self._buffer.get` returned `data` at wall-clock time `now` (lines 202-222):
the branch is chosen by `data == _reset_counter_sentinel`. -/
def runStep {α : Type} (cfg : StreamerCfg α) (now : ℚ) (st : LoopState α) :
    Entry α → LoopState α × StepOut α
  | .sentinel => resetBranch now st
  | .record v => if cfg.eqSentinel v then resetBranch now st else sendBranch cfg now st v

/-- The loop run over the FIFO queue content: each element pairs the
wall-clock time of the iteration with the dequeued entry. -/
def runLoop {α : Type} (cfg : StreamerCfg α) :
    List (ℚ × Entry α) → LoopState α → LoopState α × List (StepOut α)
  | [], st => (st, [])
  | (now, e) :: rest, st =>
      let step := runStep cfg now st e
      let tail := runLoop cfg rest step.1
      (tail.1, step.2 :: tail.2)

/-- The loop-local pacing initialization of `Streamer._run`
(lines 180-187): with a positive frequency the window starts holding
`self._t0`; otherwise there is no window.  `rep_ready` starts `False`
(line 178). -/
def loopInit {α : Type} (cfg : StreamerCfg α) (t0 : ℚ) (records bytes : Nat) :
    LoopState α :=
  { records_sent := records, bytes_sent := bytes, t0 := t0,
    t_sent := if 0 < cfg.frequency then some [t0] else none, rep_ready := false }

/-- What `Streamer.feed` puts on the queue for a record (lines 135-145):
the record itself, serialized first when early serialization is enabled. -/
def feedEntry {α : Type} (cfg : StreamerCfg α) (r : α) : Entry α :=
  .record (if cfg.early_serialization then cfg.pack r else r)

/-- The payloads handed to `_send`, in order. -/
def sentPayloads {α : Type} (outs : List (StepOut α)) : List α :=
  outs.filterMap StepOut.sent

/-- The pacing sleeps performed, in order. -/
def sleeps {α : Type} (outs : List (StepOut α)) : List ℚ :=
  outs.filterMap StepOut.sleep

/-- The `(records_sent, bytes_sent)` snapshots read by `__reset_counter`,
in order. -/
def resetSnapshots {α : Type} (outs : List (StepOut α)) : List (Nat × Nat) :=
  outs.filterMap StepOut.resetSnapshot

/-- Reference epoch bookkeeping for the queue content: walking the entries
in order with a running record count, emit the count at every entry the
loop treats as a reset and return the final epoch's count.  (Used to state
that resets separate the epochs exactly at their queue position.) -/
def epochSplit {α : Type} (cfg : StreamerCfg α) :
    List (Entry α) → Nat → List Nat × Nat
  | [], acc => ([], acc)
  | e :: es, acc =>
      if e.pyEqSentinel cfg then
        let rest := epochSplit cfg es 0
        (acc :: rest.1, rest.2)
      else
        epochSplit cfg es (acc + 1)

/-- `records_sent` and the number of reports fired after `k` consecutive
sends of `payload` starting from a fresh epoch. -/
def reportsAfter {α : Type} (cfg : StreamerCfg α) (payload : α) : Nat → Nat × Nat
  | 0 => (0, 0)
  | k + 1 =>
      let prev := reportsAfter cfg payload k
      let s := streamerSend cfg payload prev.1 0
      (s.records_sent, prev.2 + if s.reported then 1 else 0)

/-- A concrete data universe for counterexamples: over `Bool`, the value
`true` stands for an object whose `__eq__` answers `True` to everything
(hence also to `x == _reset_counter_sentinel`), while `false` is a
well-behaved record. -/
def cfgB : StreamerCfg Bool :=
  { sock_type := .PUSH, multipart := false, early_serialization := false,
    pack := id, eqSentinel := fun b => b, getsizeof := fun _ => 1,
    asSeq := fun _ => [], frequency := -1, report_every := 100 }

/-- A concrete mid-epoch loop state. -/
def stB : LoopState Bool :=
  { records_sent := 5, bytes_sent := 40, t0 := 0, t_sent := none,
    rep_ready := false }

/-- A concrete multipart configuration over `Bool`: every payload is viewed
as the two frames `[true, false]` of one byte each. -/
def cfgM : StreamerCfg Bool :=
  { cfgB with multipart := true, asSeq := fun _ => [true, false] }

/-- `report_every = 1`: the smallest positive reporting interval. -/
def cfgR1 : StreamerCfg Bool := { cfgB with report_every := 1 }

/-- Concrete configurations for the C6 witness: `report_every = 3` and
reporting disabled. -/
def cfgR3 : StreamerCfg Bool := { cfgB with report_every := 3 }

/-- `report_every = 0` (reporting disabled). -/
def cfgR0 : StreamerCfg Bool := { cfgB with report_every := 0 }

/-- The record carried by a queue entry, if any. -/
def recordVal {α : Type} : Entry α → Option α
  | .sentinel => none
  | .record v => some v

/-- Concrete positive-frequency configuration for the C5 witness. -/
def cfgF2 : StreamerCfg Bool := { cfgB with frequency := 2 }

/-- A loop state holding the window `[0]`. -/
def stW : LoopState Bool :=
  { records_sent := 0, bytes_sent := 0, t0 := 0, t_sent := some [0],
    rep_ready := false }

/-! ## Helper lemmas -/

theorem toNat_ofNat_of_valid {n : ℕ} (h : n.isValidChar) :
    (Char.ofNat n).toNat = n := by
  simp only [Char.ofNat, dif_pos h]
  simp [Char.ofNatAux, Char.toNat, UInt32.toNat]

theorem pyUpperChar_idem (c : Char) : pyUpperChar (pyUpperChar c) = pyUpperChar c := by
  unfold pyUpperChar
  by_cases h : 97 ≤ c.toNat ∧ c.toNat ≤ 122
  · have hv : (c.toNat - 32).isValidChar := Or.inl (by omega)
    rw [if_pos h]
    rw [if_neg]
    rw [toNat_ofNat_of_valid hv]
    omega
  · rw [if_neg h, if_neg h]

theorem pyLowerChar_idem (c : Char) : pyLowerChar (pyLowerChar c) = pyLowerChar c := by
  unfold pyLowerChar
  by_cases h : 65 ≤ c.toNat ∧ c.toNat ≤ 90
  · have hv : (c.toNat + 32).isValidChar := Or.inl (by omega)
    rw [if_pos h]
    rw [if_neg]
    rw [toNat_ofNat_of_valid hv]
    omega
  · rw [if_neg h, if_neg h]

theorem pyUpper_idem (s : String) : pyUpper (pyUpper s) = pyUpper s := by
  unfold pyUpper
  refine congrArg String.mk ?_
  show (s.data.map pyUpperChar).map pyUpperChar = s.data.map pyUpperChar
  rw [List.map_map]
  exact List.map_congr_left fun c _ => pyUpperChar_idem c

theorem pyLower_idem (s : String) : pyLower (pyLower s) = pyLower s := by
  unfold pyLower
  refine congrArg String.mk ?_
  show (s.data.map pyLowerChar).map pyLowerChar = s.data.map pyLowerChar
  rw [List.map_map]
  exact List.map_congr_left fun c _ => pyLowerChar_idem c

theorem parse_sock_type_isOk (sock : String) :
    (parse_sock_type sock).isOk = true
      ↔ (pyUpper sock = "PUSH" ∨ pyUpper sock = "REP" ∨ pyUpper sock = "PUB") := by
  unfold parse_sock_type
  by_cases h1 : pyUpper sock = "PUSH" <;> by_cases h2 : pyUpper sock = "REP" <;>
    by_cases h3 : pyUpper sock = "PUB" <;> simp [h1, h2, h3, Except.isOk, Except.toBool]

theorem parse_sock_type_error {sock : String}
    (h : ¬ (pyUpper sock = "PUSH" ∨ pyUpper sock = "REP" ∨ pyUpper sock = "PUB")) :
    parse_sock_type sock = .error ("Unsupported ZMQ socket type: " ++ pyUpper sock) := by
  push_neg at h
  unfold parse_sock_type
  simp [h.1, h.2.1, h.2.2]

theorem parse_protocol_isOk (protocol : String) :
    (parse_protocol protocol).isOk = true
      ↔ (pyLower protocol = "tcp" ∨ pyLower protocol = "ipc") := by
  unfold parse_protocol
  by_cases h1 : pyLower protocol = "tcp" <;> by_cases h2 : pyLower protocol = "ipc" <;>
    simp [h1, h2, Except.isOk, Except.toBool]

theorem parse_protocol_error {protocol : String}
    (h : ¬ (pyLower protocol = "tcp" ∨ pyLower protocol = "ipc")) :
    parse_protocol protocol
      = .error ("Unsupported ZMQ transport protocol: " ++ pyLower protocol) := by
  unfold parse_protocol
  simp [h]

theorem streamerInit_sock_error {α : Type}
    (createSer : String → Bool → Except String (α → α)) {sock : String}
    (protocol : String) (ser : SerializerArg α) (mp : Bool) {msg : String}
    (h : parse_sock_type sock = .error msg) :
    streamerInit createSer sock protocol ser mp = .error msg := by
  simp [streamerInit, h, Bind.bind, Except.bind]

theorem streamerInit_protocol_error {α : Type}
    (createSer : String → Bool → Except String (α → α)) {sock : String}
    {protocol : String} (ser : SerializerArg α) (mp : Bool) {st : SockType}
    {msg : String} (hs : parse_sock_type sock = .ok st)
    (h : parse_protocol protocol = .error msg) :
    streamerInit createSer sock protocol ser mp = .error msg := by
  simp [streamerInit, hs, h, Bind.bind, Except.bind]

theorem streamerInit_callable_ok {α : Type}
    (createSer : String → Bool → Except String (α → α)) {sock protocol : String}
    (f : α → α) (mp : Bool) {st : SockType} {proto : String}
    (hs : parse_sock_type sock = .ok st) (hp : parse_protocol protocol = .ok proto) :
    streamerInit createSer sock protocol (.callable f) mp
      = .ok { sock_type := st, protocol := proto, pack := f, multipart := mp } := by
  simp [streamerInit, hs, hp, Bind.bind, Except.bind, Pure.pure, Except.pure]

/-! ## Claim C10 -/

/-- Claim C10 (confirmed): the `sock` and `protocol` arguments are parsed
case-insensitively — parsing behaves exactly as on the upper-cased (resp.
lower-cased) argument, and in particular `"push"`, `"Rep"`, `"TCP"` and
`"iPc"` are accepted. -/
theorem c10_case_insensitive {α : Type}
    (createSer : String → Bool → Except String (α → α))
    (sock protocol : String) (ser : SerializerArg α) (mp : Bool) :
    parse_sock_type (pyUpper sock) = parse_sock_type sock
    ∧ parse_protocol (pyLower protocol) = parse_protocol protocol
    ∧ streamerInit createSer (pyUpper sock) protocol ser mp
        = streamerInit createSer sock protocol ser mp
    ∧ streamerInit createSer sock (pyLower protocol) ser mp
        = streamerInit createSer sock protocol ser mp
    ∧ (parse_sock_type "push").isOk = true
    ∧ (parse_sock_type "Rep").isOk = true
    ∧ (parse_protocol "TCP").isOk = true
    ∧ (parse_protocol "iPc").isOk = true := by
  have hs : parse_sock_type (pyUpper sock) = parse_sock_type sock := by
    unfold parse_sock_type
    rw [pyUpper_idem]
  have hp : parse_protocol (pyLower protocol) = parse_protocol protocol := by
    unfold parse_protocol
    rw [pyLower_idem]
  refine ⟨hs, hp, ?_, ?_, by decide, by decide, by decide, by decide⟩
  · unfold streamerInit
    rw [hs]
  · unfold streamerInit
    rw [hp]

/-! ## Claim C9 -/

/-- Claim C9 (confirmed): with an otherwise valid configuration (a callable
serializer), construction fails exactly when the socket role is none of
PUSH/PUB/REP or the protocol is neither tcp nor ipc (both compared after
case canonicalization, cf. C10), the raised message names the offending
(canonicalized) value, and every combination of the documented values
constructs without raising. -/
theorem c9_construction_validation {α : Type}
    (createSer : String → Bool → Except String (α → α))
    (sock protocol : String) (f : α → α) (mp : Bool) :
    ((streamerInit createSer sock protocol (.callable f) mp).isOk = true
       ↔ ((pyUpper sock = "PUSH" ∨ pyUpper sock = "REP" ∨ pyUpper sock = "PUB")
           ∧ (pyLower protocol = "tcp" ∨ pyLower protocol = "ipc")))
    ∧ (¬ (pyUpper sock = "PUSH" ∨ pyUpper sock = "REP" ∨ pyUpper sock = "PUB") →
        streamerInit createSer sock protocol (.callable f) mp
          = .error ("Unsupported ZMQ socket type: " ++ pyUpper sock))
    ∧ ((pyUpper sock = "PUSH" ∨ pyUpper sock = "REP" ∨ pyUpper sock = "PUB") →
        ¬ (pyLower protocol = "tcp" ∨ pyLower protocol = "ipc") →
        streamerInit createSer sock protocol (.callable f) mp
          = .error ("Unsupported ZMQ transport protocol: " ++ pyLower protocol))
    ∧ ((sock = "PUSH" ∨ sock = "PUB" ∨ sock = "REP") →
        (protocol = "tcp" ∨ protocol = "ipc") →
        (streamerInit createSer sock protocol (.callable f) mp).isOk = true) := by
  have sockOk : ∀ h : pyUpper sock = "PUSH" ∨ pyUpper sock = "REP" ∨ pyUpper sock = "PUB",
      ∃ st, parse_sock_type sock = .ok st := by
    intro h
    have := (parse_sock_type_isOk sock).2 h
    cases hps : parse_sock_type sock with
    | ok st => exact ⟨st, rfl⟩
    | error m => rw [hps] at this; simp [Except.isOk, Except.toBool] at this
  have protoOk : ∀ h : pyLower protocol = "tcp" ∨ pyLower protocol = "ipc",
      ∃ p, parse_protocol protocol = .ok p := by
    intro h
    have := (parse_protocol_isOk protocol).2 h
    cases hpp : parse_protocol protocol with
    | ok p => exact ⟨p, rfl⟩
    | error m => rw [hpp] at this; simp [Except.isOk, Except.toBool] at this
  refine ⟨?_, ?_, ?_, ?_⟩
  · constructor
    · intro hok
      by_cases hs : pyUpper sock = "PUSH" ∨ pyUpper sock = "REP" ∨ pyUpper sock = "PUB"
      · by_cases hp : pyLower protocol = "tcp" ∨ pyLower protocol = "ipc"
        · exact ⟨hs, hp⟩
        · obtain ⟨st, hst⟩ := sockOk hs
          rw [streamerInit_protocol_error createSer _ mp hst (parse_protocol_error hp)]
            at hok
          simp [Except.isOk, Except.toBool] at hok
      · rw [streamerInit_sock_error createSer protocol _ mp (parse_sock_type_error hs)]
          at hok
        simp [Except.isOk, Except.toBool] at hok
    · rintro ⟨hs, hp⟩
      obtain ⟨st, hst⟩ := sockOk hs
      obtain ⟨p, hpp⟩ := protoOk hp
      rw [streamerInit_callable_ok createSer f mp hst hpp]
      rfl
  · intro hs
    exact streamerInit_sock_error createSer protocol _ mp (parse_sock_type_error hs)
  · intro hs hp
    obtain ⟨st, hst⟩ := sockOk hs
    exact streamerInit_protocol_error createSer _ mp hst (parse_protocol_error hp)
  · intro hs hp
    have hs' : pyUpper sock = "PUSH" ∨ pyUpper sock = "REP" ∨ pyUpper sock = "PUB" := by
      rcases hs with h | h | h <;> rw [h] <;> decide
    have hp' : pyLower protocol = "tcp" ∨ pyLower protocol = "ipc" := by
      rcases hp with h | h <;> rw [h] <;> decide
    obtain ⟨st, hst⟩ := sockOk hs'
    obtain ⟨p, hpp⟩ := protoOk hp'
    rw [streamerInit_callable_ok createSer f mp hst hpp]
    rfl

/-- Witness for C9 at concrete inputs: `sock="PUB"`, `protocol="ipc"`
constructs, and `sock="DEALER"` fails naming the value. -/
theorem c9_construction_validation_witness :
    (streamerInit (fun _ _ => (.error "" : Except String (Bool → Bool)))
        "PUB" "ipc" (.callable id) false).isOk = true
    ∧ streamerInit (fun _ _ => (.error "" : Except String (Bool → Bool)))
        "dealer" "tcp" (.callable id) false
        = .error ("Unsupported ZMQ socket type: " ++ pyUpper "dealer") := by
  constructor
  · exact (c9_construction_validation _ "PUB" "ipc" id false).2.2.2
      (Or.inr (Or.inl rfl)) (Or.inr rfl)
  · exact (c9_construction_validation _ "dealer" "tcp" id false).2.1 (by decide)

/-! ## Claim C1 -/

/-- Claim C1 (refuted as stated): `Streamer.__init__` performs no check
relating `sock="REP"` to `multipart=True`.  With a callable serializer the
serializer factory is never consulted (here it is even one that would
reject everything), and construction with `sock="REP"`, `multipart=True`
returns a `Streamer`. -/
theorem c1_counterexample :
    (streamerInit (fun _ _ => (.error "no serializer" : Except String (Bool → Bool)))
        "REP" "tcp" (.callable id) true).isOk = true := by
  rfl

/-- Claim C1 (amended): constructing with `sock="REP"` and `multipart=true`
fails only through the serializer factory: with a callable serializer the
constructor returns a Streamer, and with a named serializer the
construction result is exactly the factory's verdict for that name with
`multipart=true` (the default `"avro"` factory raises the
"does not support multipart message" error the test observes, and that
error propagates out of the constructor unchanged). -/
theorem c1_amended {α : Type} (createSer : String → Bool → Except String (α → α))
    (f : α → α) (kind : String) :
    (streamerInit createSer "REP" "tcp" (.callable f) true).isOk = true
    ∧ streamerInit createSer "REP" "tcp" (.named kind) true
        = (createSer kind true).map
            (fun pack =>
              { sock_type := SockType.REP, protocol := "tcp", pack := pack,
                multipart := true }) := by
  constructor
  · rfl
  · show (parse_sock_type "REP" >>= fun sock_type => _) = _
    have hs : parse_sock_type "REP" = .ok SockType.REP := rfl
    have hp : parse_protocol "tcp" = .ok "tcp" := rfl
    simp only [streamerInit, hs, hp, Bind.bind, Except.bind]
    cases h : createSer kind true with
    | ok pack => simp [h, Except.map, Pure.pure, Except.pure]
    | error m => simp [h, Except.map]

/-! ## Claims C2 and C7: the reset branch -/

theorem runStep_sentinel {α : Type} (cfg : StreamerCfg α) (now : ℚ)
    (st : LoopState α) : runStep cfg now st .sentinel = resetBranch now st := rfl

theorem runStep_record_of_eq {α : Type} (cfg : StreamerCfg α) (now : ℚ)
    (st : LoopState α) {v : α} (h : cfg.eqSentinel v = true) :
    runStep cfg now st (.record v) = resetBranch now st := by
  simp [runStep, h]

theorem runStep_record_of_ne {α : Type} (cfg : StreamerCfg α) (now : ℚ)
    (st : LoopState α) {v : α} (h : cfg.eqSentinel v = false) :
    runStep cfg now st (.record v) = sendBranch cfg now st v := by
  simp [runStep, h]

theorem sendBranch_fst_records {α : Type} (cfg : StreamerCfg α) (now : ℚ)
    (st : LoopState α) (v : α) :
    (sendBranch cfg now st v).1.records_sent = st.records_sent + 1 := by
  unfold sendBranch
  cases st.t_sent <;> rfl

theorem sendBranch_snd_sent {α : Type} (cfg : StreamerCfg α) (now : ℚ)
    (st : LoopState α) (v : α) :
    (sendBranch cfg now st v).2.sent
      = some (if cfg.early_serialization then v else cfg.pack v) := by
  unfold sendBranch
  cases st.t_sent <;> rfl

theorem sendBranch_snd_resetSnapshot {α : Type} (cfg : StreamerCfg α) (now : ℚ)
    (st : LoopState α) (v : α) :
    (sendBranch cfg now st v).2.resetSnapshot = none := by
  unfold sendBranch
  cases st.t_sent <;> rfl

/-- Claim C7 (confirmed): when the loop dequeues the reset sentinel it
emits a report exactly when records were sent this epoch, zeroes
`records_sent` and `bytes_sent` together, restarts the epoch clock at the
current time, clears the pacer window when pacing is active (and leaves it
absent otherwise), transmits nothing, sleeps nothing, and leaves the
remaining loop state (`rep_ready`) unchanged. -/
theorem c7_reset_sentinel_effect {α : Type} (cfg : StreamerCfg α) (now : ℚ)
    (st : LoopState α) :
    (runStep cfg now st .sentinel).1.records_sent = 0
    ∧ (runStep cfg now st .sentinel).1.bytes_sent = 0
    ∧ (runStep cfg now st .sentinel).1.t0 = now
    ∧ (runStep cfg now st .sentinel).1.t_sent = st.t_sent.map (fun _ => [])
    ∧ (runStep cfg now st .sentinel).1.rep_ready = st.rep_ready
    ∧ (runStep cfg now st .sentinel).2.events = []
    ∧ (runStep cfg now st .sentinel).2.sent = none
    ∧ (runStep cfg now st .sentinel).2.sleep = none
    ∧ (runStep cfg now st .sentinel).2.sendReported = false
    ∧ ((runStep cfg now st .sentinel).2.resetReported = true ↔ 0 < st.records_sent) := by
  refine ⟨rfl, rfl, rfl, rfl, rfl, rfl, rfl, rfl, rfl, ?_⟩
  simp [runStep, resetBranch]

/-- Claim C2 (refuted as stated): the reset branch is selected by `==`
equality, not identity.  The entry `Entry.record true` is not the sentinel
object, yet — because its equality comparison against the sentinel
succeeds — the loop transmits nothing for it and instead resets the
counters (here from 5 to 0), i.e. a non-sentinel queue entry does trigger
the reset branch. -/
theorem c2_counterexample :
    (Entry.record true ≠ (Entry.sentinel : Entry Bool))
    ∧ (runStep cfgB 1 stB (.record true)).2.events = []
    ∧ (runStep cfgB 1 stB (.record true)).2.sent = none
    ∧ stB.records_sent = 5
    ∧ (runStep cfgB 1 stB (.record true)).1.records_sent = 0
    ∧ (runStep cfgB 1 stB (.record true)).2.resetReported = true := by
  exact ⟨by decide, rfl, rfl, rfl, rfl, by decide⟩

/-- Claim C2 (amended): the loop distinguishes the sentinel by Python `==`
comparison with the sentinel object, not by identity.  The sentinel itself
always triggers the reset branch; any other entry triggers it exactly when
its equality comparison against the sentinel returns `True`; entries whose
comparison returns `False` are treated as records and transmitted. -/
theorem c2_amended {α : Type} (cfg : StreamerCfg α) (now : ℚ) (st : LoopState α)
    (v : α) :
    (runStep cfg now st .sentinel).2.sent = none
    ∧ (runStep cfg now st .sentinel).1.records_sent = 0
    ∧ (cfg.eqSentinel v = true →
        (runStep cfg now st (.record v)).2.sent = none
        ∧ (runStep cfg now st (.record v)).1.records_sent = 0)
    ∧ (cfg.eqSentinel v = false →
        (runStep cfg now st (.record v)).2.sent
            = some (if cfg.early_serialization then v else cfg.pack v)
        ∧ (runStep cfg now st (.record v)).1.records_sent = st.records_sent + 1) := by
  refine ⟨rfl, rfl, fun h => ?_, fun h => ?_⟩
  · rw [runStep_record_of_eq cfg now st h]
    exact ⟨rfl, rfl⟩
  · rw [runStep_record_of_ne cfg now st h]
    exact ⟨sendBranch_snd_sent cfg now st v, sendBranch_fst_records cfg now st v⟩

/-- Witness for the amended C2 at concrete inputs: the pathological record
is swallowed by the reset branch while the well-behaved record is
transmitted. -/
theorem c2_amended_witness :
    (runStep cfgB 1 stB (.record false)).2.sent = some false
    ∧ (runStep cfgB 2 stB (.record true)).2.sent = none := by
  constructor
  · exact ((c2_amended cfgB 1 stB false).2.2.2 rfl).1
  · exact ((c2_amended cfgB 2 stB true).2.2.1 rfl).1

/-! ## Claim C3: multipart transmission -/

theorem streamerSend_records_sent {α : Type} (cfg : StreamerCfg α) (payload : α)
    (records bytes : Nat) :
    (streamerSend cfg payload records bytes).records_sent = records + 1 := rfl

theorem streamerSend_reported {α : Type} (cfg : StreamerCfg α) (payload : α)
    (records bytes : Nat) :
    (streamerSend cfg payload records bytes).reported
      = (decide (0 < cfg.report_every)
          && decide ((records + 1) % cfg.report_every.toNat = 0)) := rfl

theorem sendFramesGo_map_frame {α : Type} (xs : List α) :
    ∀ i n : Nat, (sendFramesGo n i xs).map SendEvent.frame = xs := by
  induction xs with
  | nil => intro i n; rfl
  | cons x rest ih => intro i n; simp [sendFramesGo, ih]

theorem sendFramesGo_ne_nil {α : Type} {xs : List α} (h : xs ≠ []) (i n : Nat) :
    sendFramesGo n i xs ≠ [] := by
  intro hc
  have := sendFramesGo_map_frame xs i n
  rw [hc] at this
  exact h this.symm

theorem sendFramesGo_dropLast_sndmore {α : Type} (xs : List α) :
    ∀ i n : Nat, i + xs.length = n →
      ∀ ev ∈ (sendFramesGo n i xs).dropLast, ev.sndmore = true := by
  induction xs with
  | nil => intro i n _ ev hev; simp [sendFramesGo] at hev
  | cons x rest ih =>
    intro i n h ev hev
    cases rest with
    | nil => simp [sendFramesGo] at hev
    | cons y ys =>
      rw [sendFramesGo] at hev
      rw [List.dropLast_cons_of_ne_nil (sendFramesGo_ne_nil (by simp) (i + 1) n)]
        at hev
      rcases List.mem_cons.1 hev with he | he
      · subst he
        simp only [List.length_cons] at h
        simp only [decide_eq_true_eq]
        omega
      · exact ih (i + 1) n (by simp only [List.length_cons] at h ⊢; omega) ev he

theorem sendFramesGo_getLast_sndmore {α : Type} (xs : List α) :
    ∀ i n : Nat, i + xs.length = n →
      ∀ ev, (sendFramesGo n i xs).getLast? = some ev → ev.sndmore = false := by
  induction xs with
  | nil => intro i n _ ev hev; simp [sendFramesGo] at hev
  | cons x rest ih =>
    intro i n h ev hev
    cases rest with
    | nil =>
      simp only [sendFramesGo, List.getLast?_singleton, Option.some.injEq] at hev
      subst hev
      simp only [List.length_cons, List.length_nil] at h
      simp only [decide_eq_false_iff_not, not_not]
      omega
    | cons y ys =>
      rw [sendFramesGo, sendFramesGo, List.getLast?_cons_cons] at hev
      exact ih (i + 1) n (by simp only [List.length_cons] at h ⊢; omega) ev
        (by rw [sendFramesGo]; exact hev)

/-- Claim C3 (confirmed): a multipart send of a payload with a non-empty
frame sequence issues one `socket.send` per frame in order, with the
"more data follows" marker (`zmq.SNDMORE`) on every frame except the last
and not on the last; `bytes_sent` grows by exactly the sum of the frames'
`sys.getsizeof` sizes; and `records_sent` grows by exactly 1 for the whole
message. -/
theorem c3_multipart_send {α : Type} (cfg : StreamerCfg α) (payload : α)
    (records bytes : Nat) (hm : cfg.multipart = true)
    (hne : cfg.asSeq payload ≠ []) :
    (streamerSend cfg payload records bytes).events ≠ []
    ∧ (streamerSend cfg payload records bytes).events.map SendEvent.frame
        = cfg.asSeq payload
    ∧ (∀ ev ∈ (streamerSend cfg payload records bytes).events.dropLast,
        ev.sndmore = true)
    ∧ (∀ ev, (streamerSend cfg payload records bytes).events.getLast? = some ev →
        ev.sndmore = false)
    ∧ (streamerSend cfg payload records bytes).bytes_sent
        = bytes + ((cfg.asSeq payload).map cfg.getsizeof).sum
    ∧ (streamerSend cfg payload records bytes).records_sent = records + 1 := by
  have hev : (streamerSend cfg payload records bytes).events
      = sendFrames (cfg.asSeq payload) := by
    simp [streamerSend, hm]
  have hby : (streamerSend cfg payload records bytes).bytes_sent
      = bytes + ((cfg.asSeq payload).map cfg.getsizeof).sum := by
    simp [streamerSend, hm]
  refine ⟨?_, ?_, ?_, ?_, hby, rfl⟩
  · rw [hev]
    exact sendFramesGo_ne_nil hne 0 _
  · rw [hev]
    exact sendFramesGo_map_frame _ 0 _
  · rw [hev]
    exact sendFramesGo_dropLast_sndmore _ 0 _ (by simp)
  · rw [hev]
    exact sendFramesGo_getLast_sndmore _ 0 _ (by simp)

/-- Witness for C3 at a concrete two-frame payload. -/
theorem c3_multipart_send_witness :
    (streamerSend cfgM true 5 7).events.map SendEvent.frame = [true, false]
    ∧ (streamerSend cfgM true 5 7).bytes_sent = 9
    ∧ (streamerSend cfgM true 5 7).records_sent = 6 := by
  have h := c3_multipart_send cfgM true 5 7 rfl (by decide)
  exact ⟨h.2.1, h.2.2.2.2.1, h.2.2.2.2.2⟩

/-! ## Claim C6: throughput reporting -/

theorem reportsAfter_fst {α : Type} (cfg : StreamerCfg α) (payload : α) :
    ∀ k, (reportsAfter cfg payload k).1 = k := by
  intro k
  induction k with
  | zero => rfl
  | succ k ih => simp [reportsAfter, streamerSend_records_sent, ih]

theorem reportsAfter_snd {α : Type} (cfg : StreamerCfg α) (payload : α)
    (N : ℕ) (hN : 0 < N) (hc : cfg.report_every = (N : ℤ)) :
    ∀ k, (reportsAfter cfg payload k).2 = k / N := by
  intro k
  induction k with
  | zero => simp [reportsAfter]
  | succ k ih =>
    have hpos : (0 : ℤ) < cfg.report_every := by
      rw [hc]; exact_mod_cast hN
    have htn : cfg.report_every.toNat = N := by rw [hc]; simp
    simp only [reportsAfter, streamerSend_records_sent, streamerSend_reported,
      reportsAfter_fst, ih, htn, decide_eq_true hpos, Bool.true_and]
    rw [Nat.succ_div]
    by_cases hd : (k + 1) % N = 0 <;>
      simp [Nat.dvd_iff_mod_eq_zero, hd]

/-- Claim C6 (refuted as stated for `report_every = 1`): with
`report_every = 1`, sending `report_every + 1 = 2` records from a fresh
epoch fires the report twice (every updated count is a multiple of 1), not
"exactly once" as the claim asserts for every `N > 0`. -/
theorem c6_counterexample :
    cfgR1.report_every = 1
    ∧ (reportsAfter cfgR1 true (1 + 1)).2 = 2
    ∧ (reportsAfter cfgR1 true (1 + 1)).2 ≠ 1 := by
  refine ⟨rfl, rfl, by decide⟩

/-- Claim C6 (amended): a report fires on a send iff `report_every > 0` and
the updated `records_sent` is an exact multiple of it; with
`report_every = N ≥ 2`, sending exactly `N + 1` records from a fresh epoch
fires exactly one report — already after the `N`-th send and none earlier —
and any `report_every ≤ 0` disables per-send reporting entirely.  (The
claim's "exactly one report" fails only at `N = 1`, where the report fires
on every send.) -/
theorem c6_amended {α : Type} (cfg : StreamerCfg α) (payload : α)
    (records bytes : Nat) (N k : Nat) :
    ((streamerSend cfg payload records bytes).reported = true
       ↔ 0 < cfg.report_every
         ∧ (streamerSend cfg payload records bytes).records_sent
             % cfg.report_every.toNat = 0)
    ∧ (cfg.report_every = (N : ℤ) → 2 ≤ N →
        (reportsAfter cfg payload (N + 1)).2 = 1
        ∧ (reportsAfter cfg payload (N - 1)).2 = 0
        ∧ (reportsAfter cfg payload N).2 = 1)
    ∧ (cfg.report_every ≤ 0 → (reportsAfter cfg payload k).2 = 0) := by
  refine ⟨?_, fun hc hN => ?_, fun hle => ?_⟩
  · rw [streamerSend_reported, streamerSend_records_sent]
    simp [Bool.and_eq_true, decide_eq_true_eq]
  · have hN0 : 0 < N := by omega
    have hs := reportsAfter_snd cfg payload N hN0 hc
    refine ⟨?_, ?_, ?_⟩
    · rw [hs]
      exact Nat.div_eq_of_lt_le (by omega) (by omega)
    · rw [hs]
      exact Nat.div_eq_of_lt (by omega)
    · rw [hs]
      exact Nat.div_self hN0
  · induction k with
    | zero => rfl
    | succ k ih =>
      have hdec : decide (0 < cfg.report_every) = false :=
        decide_eq_false (not_lt.2 hle)
      simp [reportsAfter, streamerSend_reported, hdec, ih]

/-- Witness for the amended C6: with `report_every = 3`, four sends report
once (at the third), two sends report never; with reporting disabled, five
sends report never. -/
theorem c6_amended_witness :
    (reportsAfter cfgR3 true 4).2 = 1
    ∧ (reportsAfter cfgR3 true 2).2 = 0
    ∧ (reportsAfter cfgR3 true 3).2 = 1
    ∧ (reportsAfter cfgR0 true 5).2 = 0 := by
  have h := (c6_amended cfgR3 true 0 0 3 0).2.1 rfl (by norm_num)
  have h0 := (c6_amended cfgR0 true 0 0 0 5).2.2 (by decide)
  exact ⟨h.1, h.2.1, h.2.2, h0⟩

/-! ## Claim C4: FIFO order and epoch separation -/

theorem runLoop_nil {α : Type} (cfg : StreamerCfg α) (st : LoopState α) :
    runLoop cfg [] st = (st, []) := rfl

theorem runLoop_cons {α : Type} (cfg : StreamerCfg α) (now : ℚ) (e : Entry α)
    (rest : List (ℚ × Entry α)) (st : LoopState α) :
    runLoop cfg ((now, e) :: rest) st
      = ((runLoop cfg rest (runStep cfg now st e).1).1,
         (runStep cfg now st e).2 :: (runLoop cfg rest (runStep cfg now st e).1).2) :=
  rfl

theorem resetBranch_fst_records {α : Type} (now : ℚ) (st : LoopState α) :
    (resetBranch now st).1.records_sent = 0 := rfl

theorem resetBranch_snd_sent {α : Type} (now : ℚ) (st : LoopState α) :
    (resetBranch now st).2.sent = (none : Option α) := rfl

theorem resetBranch_snd_resetSnapshot {α : Type} (now : ℚ) (st : LoopState α) :
    (resetBranch now st).2.resetSnapshot = some (st.records_sent, st.bytes_sent) := rfl

theorem runLoop_sentPayloads {α : Type} (cfg : StreamerCfg α) :
    ∀ (steps : List (ℚ × Entry α)) (st : LoopState α),
      (∀ v : α, Entry.record v ∈ steps.map Prod.snd → cfg.eqSentinel v = false) →
      sentPayloads (runLoop cfg steps st).2
        = ((steps.map Prod.snd).filterMap recordVal).map
            (fun v => if cfg.early_serialization then v else cfg.pack v)
  | [], _, _ => rfl
  | (now, .sentinel) :: rest, st, h => by
      have hr := runLoop_sentPayloads cfg rest (runStep cfg now st .sentinel).1
        (fun v hv => h v (by simp [hv]))
      simp only [runLoop_cons, sentPayloads, List.filterMap_cons, runStep_sentinel,
        resetBranch_snd_sent, List.map_cons, recordVal] at hr ⊢
      exact hr
  | (now, .record v) :: rest, st, h => by
      have hv : cfg.eqSentinel v = false := h v (by simp)
      have hr := runLoop_sentPayloads cfg rest (runStep cfg now st (.record v)).1
        (fun u hu => h u (by simp [hu]))
      simp only [runLoop_cons, sentPayloads, List.filterMap_cons,
        runStep_record_of_ne cfg now st hv, sendBranch_snd_sent,
        List.map_cons, recordVal] at hr ⊢
      rw [hr]

theorem runLoop_epochs {α : Type} (cfg : StreamerCfg α) :
    ∀ (steps : List (ℚ × Entry α)) (st : LoopState α),
      (∀ v : α, Entry.record v ∈ steps.map Prod.snd → cfg.eqSentinel v = false) →
      (resetSnapshots (runLoop cfg steps st).2).map Prod.fst
          = (epochSplit cfg (steps.map Prod.snd) st.records_sent).1
      ∧ (runLoop cfg steps st).1.records_sent
          = (epochSplit cfg (steps.map Prod.snd) st.records_sent).2
  | [], _, _ => ⟨rfl, rfl⟩
  | (now, .sentinel) :: rest, st, h => by
      have hr := runLoop_epochs cfg rest (runStep cfg now st .sentinel).1
        (fun v hv => h v (by simp [hv]))
      rw [runStep_sentinel, resetBranch_fst_records] at hr
      constructor
      · simp only [runLoop_cons, resetSnapshots, List.filterMap_cons, runStep_sentinel,
          resetBranch_snd_resetSnapshot, List.map_cons, List.map_cons]
        simp only [epochSplit, Entry.pyEqSentinel, if_pos]
        rw [← hr.1]
        rfl
      · simp only [runLoop_cons, runStep_sentinel]
        simp only [epochSplit, Entry.pyEqSentinel, if_pos]
        exact hr.2
  | (now, .record v) :: rest, st, h => by
      have hv : cfg.eqSentinel v = false := h v (by simp)
      have hr := runLoop_epochs cfg rest (runStep cfg now st (.record v)).1
        (fun u hu => h u (by simp [hu]))
      rw [runStep_record_of_ne cfg now st hv, sendBranch_fst_records] at hr
      constructor
      · simp only [runLoop_cons, resetSnapshots, List.filterMap_cons,
          runStep_record_of_ne cfg now st hv, sendBranch_snd_resetSnapshot,
          List.map_cons]
        simp only [epochSplit, Entry.pyEqSentinel, hv, if_neg, Bool.false_eq_true,
          if_false]
        exact hr.1
      · simp only [runLoop_cons, runStep_record_of_ne cfg now st hv]
        simp only [epochSplit, Entry.pyEqSentinel, hv, Bool.false_eq_true, if_false]
        exact hr.2

/-- Claim C4 (confirmed): over any queue content produced by interleaving
`feed` and `reset_counter` (records fed are legitimate, i.e. none compares
equal to the sentinel), the loop hands the records' payloads to the socket
send in exactly the fed order with none dropped, and every reset sentinel
acts at its own queue position: the counter snapshot taken at each reset is
exactly the number of records that precede it since the previous reset,
and the final `records_sent` counts exactly the records after the last
reset. -/
theorem c4_fifo_and_epoch_separation {α : Type} (cfg : StreamerCfg α)
    (steps : List (ℚ × Entry α)) (st : LoopState α)
    (h : ∀ v : α, Entry.record v ∈ steps.map Prod.snd → cfg.eqSentinel v = false) :
    sentPayloads (runLoop cfg steps st).2
      = ((steps.map Prod.snd).filterMap recordVal).map
          (fun v => if cfg.early_serialization then v else cfg.pack v)
    ∧ (resetSnapshots (runLoop cfg steps st).2).map Prod.fst
        = (epochSplit cfg (steps.map Prod.snd) st.records_sent).1
    ∧ (runLoop cfg steps st).1.records_sent
        = (epochSplit cfg (steps.map Prod.snd) st.records_sent).2 := by
  obtain ⟨h1, h2⟩ := runLoop_epochs cfg steps st h
  exact ⟨runLoop_sentPayloads cfg steps st h, h1, h2⟩

/-- Witness for C4: two records around a reset, fed at times 1, 2, 3. -/
theorem c4_fifo_and_epoch_separation_witness :
    sentPayloads (runLoop cfgB
        [(1, .record false), (2, .sentinel), (3, .record false)] stB).2
      = [false, false]
    ∧ (resetSnapshots (runLoop cfgB
        [(1, .record false), (2, .sentinel), (3, .record false)] stB).2).map Prod.fst
      = [6]
    ∧ (runLoop cfgB
        [(1, .record false), (2, .sentinel), (3, .record false)] stB).1.records_sent
      = 1 := by
  have h := c4_fifo_and_epoch_separation cfgB
    [(1, .record false), (2, .sentinel), (3, .record false)] stB
    (by decide)
  refine ⟨?_, ?_, ?_⟩
  · rw [h.1]; rfl
  · rw [h.2.1]; rfl
  · rw [h.2.2]; rfl

/-! ## Claim C8: early vs. late serialization -/

theorem runStep_early_late {α : Type} (cfg : StreamerCfg α) (now : ℚ)
    (st : LoopState α) (r : α) (h2 : cfg.eqSentinel (cfg.pack r) = false) :
    runStep { cfg with early_serialization := true } now st (.record (cfg.pack r))
      = sendBranch { cfg with early_serialization := false } now st r := by
  rw [runStep_record_of_ne _ now st (by simpa using h2)]
  unfold sendBranch
  cases hts : st.t_sent <;> rfl

/-- Claim C8 (confirmed): for any stream of legitimate records (none — raw
or serialized — comparing equal to the sentinel), running the loop in early-
serialization mode on the queue `feed` produces (records already packed at
feed time) is *identical* — same final state, same socket events, same
reports, same sleeps — to running it in late-serialization mode on the raw
records; and in both modes the payload handed to the transport for the
`i`-th record is exactly `pack rᵢ`: the serializer is applied exactly once
per record. -/
theorem c8_serialization_equivalence {α : Type} (cfg : StreamerCfg α)
    (rs : List α) (ts : List ℚ) (st : LoopState α)
    (hlen : ts.length = rs.length)
    (h : ∀ r ∈ rs, cfg.eqSentinel r = false ∧ cfg.eqSentinel (cfg.pack r) = false) :
    runLoop { cfg with early_serialization := true }
        (ts.zip (rs.map (feedEntry { cfg with early_serialization := true }))) st
      = runLoop { cfg with early_serialization := false }
        (ts.zip (rs.map (feedEntry { cfg with early_serialization := false }))) st
    ∧ sentPayloads (runLoop { cfg with early_serialization := false }
        (ts.zip (rs.map (feedEntry { cfg with early_serialization := false }))) st).2
      = rs.map cfg.pack := by
  induction rs generalizing ts st with
  | nil =>
    rw [List.length_nil, List.length_eq_zero] at hlen
    subst hlen
    exact ⟨rfl, rfl⟩
  | cons r rest ih =>
    cases ts with
    | nil => simp at hlen
    | cons t ts' =>
      have hr := h r (by simp)
      have hstep := runStep_early_late cfg t st r hr.2
      have hlate : runStep { cfg with early_serialization := false } t st (.record r)
          = sendBranch { cfg with early_serialization := false } t st r :=
        runStep_record_of_ne _ t st (by simpa using hr.1)
      have hih := ih ts' (sendBranch { cfg with early_serialization := false } t st r).1
        (by simpa using hlen) (fun u hu => h u (by simp [hu]))
      constructor
      · simp only [List.map_cons, List.zip_cons_cons, runLoop_cons, feedEntry]
        simp only [feedEntry] at hih
        rw [show ({ cfg with early_serialization := true } : StreamerCfg α).pack
            = cfg.pack from rfl]
        simp only [if_pos, if_neg, Bool.false_eq_true, if_false, if_true]
        rw [hstep, hlate, hih.1]
      · simp only [List.map_cons, List.zip_cons_cons, runLoop_cons, feedEntry]
        simp only [Bool.false_eq_true, if_false]
        rw [hlate]
        simp only [sentPayloads, List.filterMap_cons, sendBranch_snd_sent]
        simp only [Bool.false_eq_true, if_false]
        simp only [feedEntry, Bool.false_eq_true, if_false] at hih
        exact congrArg (List.cons (cfg.pack r)) hih.2

/-- Witness for C8: one record over `cfgB` (where `pack` is the identity),
both modes produce the same run and the payload sent is the packed record. -/
theorem c8_serialization_equivalence_witness :
    runLoop { cfgB with early_serialization := true }
        ([(1 : ℚ)].zip ([false].map (feedEntry { cfgB with early_serialization := true }))) stB
      = runLoop { cfgB with early_serialization := false }
        ([(1 : ℚ)].zip ([false].map (feedEntry { cfgB with early_serialization := false }))) stB
    ∧ sentPayloads (runLoop { cfgB with early_serialization := false }
        ([(1 : ℚ)].zip ([false].map (feedEntry { cfgB with early_serialization := false }))) stB).2
      = [false] := by
  exact c8_serialization_equivalence cfgB [false] [1] stB rfl (by decide)

/-! ## Claim C5: the pacer -/

theorem dequeAppend_eq_drop {M : Nat} (hM : 1 ≤ M) (xs : List ℚ) (x : ℚ) :
    dequeAppend M xs x = (xs ++ [x]).drop (xs.length + 1 - M) := by
  unfold dequeAppend
  by_cases h : xs.length < M
  · rw [if_pos h, Nat.sub_eq_zero_of_le (by omega), List.drop_zero]
  · rw [if_neg h, List.drop_append_of_le_length (by omega)]

theorem windowCapacity_pos (f : ℚ) : 1 ≤ windowCapacity f :=
  le_trans (by norm_num) (le_max_left 10 _)

theorem runStep_no_window {α : Type} (cfg : StreamerCfg α) (now : ℚ)
    (st : LoopState α) (e : Entry α) (h : st.t_sent = none) :
    (runStep cfg now st e).1.t_sent = none
    ∧ (runStep cfg now st e).2.sleep = none := by
  cases e with
  | sentinel =>
    rw [runStep_sentinel]
    exact ⟨by simp [resetBranch, h], rfl⟩
  | record v =>
    by_cases hv : cfg.eqSentinel v = true
    · rw [runStep_record_of_eq cfg now st hv]
      exact ⟨by simp [resetBranch, h], rfl⟩
    · rw [runStep_record_of_ne cfg now st (by simpa using hv)]
      unfold sendBranch
      rw [h]
      exact ⟨rfl, rfl⟩

theorem runLoop_no_pacing {α : Type} (cfg : StreamerCfg α) :
    ∀ (steps : List (ℚ × Entry α)) (st : LoopState α), st.t_sent = none →
      sleeps (runLoop cfg steps st).2 = []
  | [], _, _ => rfl
  | (now, e) :: rest, st, h => by
      obtain ⟨h1, h2⟩ := runStep_no_window cfg now st e h
      rw [runLoop_cons]
      simp only [sleeps, List.filterMap_cons, h2]
      exact runLoop_no_pacing cfg rest _ h1

theorem sendBranch_window {α : Type} (cfg : StreamerCfg α) (now : ℚ)
    (st : LoopState α) (v : α) {w : List ℚ} (hw : st.t_sent = some w) :
    (sendBranch cfg now st v).1.t_sent
        = some (dequeAppend (windowCapacity cfg.frequency) w now)
    ∧ (sendBranch cfg now st v).2.sleep
        = (let w2 := dequeAppend (windowCapacity cfg.frequency) w now
           let t_wait := ((w2.length - 1 : ℕ) : ℚ) * sentInterval cfg.frequency
               - (w2.getLastD 0 - w2.headD 0)
           if 0 < t_wait then some t_wait else none) := by
  unfold sendBranch
  rw [hw]
  exact ⟨rfl, rfl⟩

/-- Claim C5 (corrected): the code sizes the pacer window with Python
`int(frequency)` — truncation (floor, for the positive frequencies that
reach this code) — not the ceiling the claim states: the capacity is
`max(10, int(F) + 1)`.  At `F = 10.5` the code's capacity is 11 while the
claimed `max(10, ceil(F)+1)` would be 12. -/
theorem c5_counterexample :
    windowCapacity (21 / 2 : ℚ) = 11
    ∧ max 10 ((⌈(21 / 2 : ℚ)⌉).toNat + 1) = 12
    ∧ windowCapacity (21 / 2 : ℚ) ≠ max 10 ((⌈(21 / 2 : ℚ)⌉).toNat + 1) := by
  have hf : ⌊(21 / 2 : ℚ)⌋ = 10 := by
    rw [Int.floor_eq_iff]
    constructor <;> norm_num
  have hc : ⌈(21 / 2 : ℚ)⌉ = 11 := by
    rw [Int.ceil_eq_iff]
    constructor <;> norm_num
  have h1 : windowCapacity (21 / 2 : ℚ) = 11 := by
    unfold windowCapacity
    rw [hf]
    rfl
  have h2 : max 10 ((⌈(21 / 2 : ℚ)⌉).toNat + 1) = 12 := by
    rw [hc]
    rfl
  exact ⟨h1, h2, by rw [h1, h2]; decide⟩

/-- Claim C5 (amended): when `F ≤ 0` no pacing sleep ever occurs; when
`F > 0` the pacer window starts as the singleton `[t0]`, its capacity is
exactly `max(10, trunc(F) + 1)` (truncation, not ceiling), each send
appends the current time and evicts the oldest entries beyond capacity
(FIFO), the window length never exceeds the capacity, and the sleep
performed equals `max(0, (window_len - 1)/F - (newest - oldest))` over the
post-append window (no sleep call is made when that quantity is zero). -/
theorem c5_amended {α : Type} (cfg : StreamerCfg α) (t0 : ℚ)
    (records bytes : Nat) (steps : List (ℚ × Entry α)) (st : LoopState α)
    (w : List ℚ) (now : ℚ) (v : α) :
    (cfg.frequency ≤ 0 →
      sleeps (runLoop cfg steps (loopInit cfg t0 records bytes)).2 = [])
    ∧ (0 < cfg.frequency →
        (loopInit cfg t0 records bytes).t_sent = some [t0]
        ∧ windowCapacity cfg.frequency = max 10 (⌊cfg.frequency⌋.toNat + 1)
        ∧ (st.t_sent = some w → cfg.eqSentinel v = false →
            (runStep cfg now st (.record v)).1.t_sent
                = some ((w ++ [now]).drop
                    (w.length + 1 - windowCapacity cfg.frequency))
            ∧ ((w ++ [now]).drop
                  (w.length + 1 - windowCapacity cfg.frequency)).length
                ≤ windowCapacity cfg.frequency
            ∧ (runStep cfg now st (.record v)).2.sleep.getD 0
                = max 0 (((((w ++ [now]).drop
                      (w.length + 1 - windowCapacity cfg.frequency)).length - 1 : ℕ) : ℚ)
                      / cfg.frequency
                    - (((w ++ [now]).drop
                          (w.length + 1 - windowCapacity cfg.frequency)).getLastD 0
                        - ((w ++ [now]).drop
                            (w.length + 1 - windowCapacity cfg.frequency)).headD 0)))) := by
  constructor
  · intro hf
    refine runLoop_no_pacing cfg steps _ ?_
    simp [loopInit, not_lt.2 hf]
  · intro hf
    refine ⟨by simp [loopInit, hf], rfl, fun hw hv => ?_⟩
    rw [runStep_record_of_ne cfg now st hv]
    have hM := windowCapacity_pos cfg.frequency
    have hda := dequeAppend_eq_drop hM w now
    obtain ⟨hts, hsl⟩ := sendBranch_window cfg now st v hw
    refine ⟨by rw [hts, hda], ?_, ?_⟩
    · rw [List.length_drop, List.length_append, List.length_singleton]
      omega
    · rw [hsl, ← hda]
      have hint : sentInterval cfg.frequency = 1 / cfg.frequency := if_pos hf
      have harith : ∀ n : ℕ, ((n : ℚ)) * sentInterval cfg.frequency
          = (n : ℚ) / cfg.frequency := by
        intro n
        rw [hint, mul_one_div]
      simp only [hint, mul_one_div]
      set w2 := dequeAppend (windowCapacity cfg.frequency) w now with hw2
      set t_wait : ℚ := ((w2.length - 1 : ℕ) : ℚ) / cfg.frequency
          - (w2.getLastD 0 - w2.headD 0) with htw
      by_cases hpos : 0 < t_wait
      · rw [if_pos hpos]
        exact (max_eq_right (le_of_lt hpos)).symm
      · rw [if_neg hpos]
        exact (max_eq_left (not_lt.1 hpos)).symm

/-- Witness for the amended C5: a negative-frequency run never sleeps, and
with `F = 2` the window `[0]` becomes the claimed post-append window after
a send at time 1. -/
theorem c5_amended_witness :
    sleeps (runLoop cfgB [(1, Entry.record false)] (loopInit cfgB 0 0 0)).2 = []
    ∧ (loopInit cfgF2 0 0 0).t_sent = some [0]
    ∧ (runStep cfgF2 1 stW (.record false)).1.t_sent
        = some ((([0] : List ℚ) ++ [1]).drop
            (([0] : List ℚ).length + 1 - windowCapacity cfgF2.frequency)) := by
  have hneg : cfgB.frequency ≤ 0 := by
    show (-1 : ℚ) ≤ 0
    norm_num
  have hpos : 0 < cfgF2.frequency := by
    show (0 : ℚ) < 2
    norm_num
  refine ⟨(c5_amended cfgB 0 0 0 [(1, Entry.record false)] stB [] 0 false).1 hneg,
    ((c5_amended cfgF2 0 0 0 [] stW [0] 1 false).2 hpos).1,
    (((c5_amended cfgF2 0 0 0 [] stW [0] 1 false).2 hpos).2.2 rfl rfl).1⟩

end Foamstream
